import Mathlib

/-!
Verification of `src/loss/logit_loss_delta.h` (class `LogitLossDelta`) from the
difacto repository: the logistic loss specialized for block coordinate descent.

Modelling conventions:
* `real_t` is modelled by `ℚ`; the C library function `std::exp` is passed in
  explicitly as a function argument `ex : ℚ → ℚ` (theorems assume of it only
  what they need, e.g. positivity, or `ex 0 = 1` for concrete runs at 0).
* `dmlc::RowBlock<unsigned>` is modelled by `RowBlock` below: CSR arrays
  `offset` / `index`, optional `value` (absent means implicit 1.0) and optional
  `label` (a null pointer is `none`).
* A fatal `CHECK` failure (`CHECK_GE`, `CHECK_LE`, `CHECK_EQ`, `CHECK_NOTNULL`)
  aborts the call; the operations therefore return `Option`, with `none` for a
  precondition failure.
* The `SpMV` multiply primitive lives in `common/spmv.h`, outside the sources
  at hand; it is modelled from the spec's contract (section 6) as a declarative
  per-slot accumulation, which the spec itself licenses ("output values are
  deterministic ... value-equivalence up to floating-point summation order").
-/

namespace Difacto

/-- A sparse row-major block, the model of `dmlc::RowBlock<unsigned>`:
`offset r` / `offset (r+1)` delimit the `index` / `value` range of row `r`;
`value = none` means all nonzero values are implicitly `1.0`;
`label = none` models a null label pointer. -/
structure RowBlock where
  size : Nat
  offset : List Nat
  index : List Nat
  value : Option (List ℚ)
  label : Option (List ℚ)
deriving Repr, DecidableEq

/-- Modelled from the spec: a position mapping (`w_pos` / `grad_pos` / `h_pos`)
sends logical coordinate `i` to a physical slot; an empty mapping is the
identity, a negative entry means the coordinate is absent. -/
def posMap (pos : List Int) (i : Nat) : Option Nat :=
  if pos.isEmpty then some i
  else match pos[i]? with
    | some v => if 0 ≤ v then some v.toNat else none
    | none => none

/-- The entries `(column index, value)` of row `r` of a block; an absent
`value` array yields the implicit value `1.0`. -/
def rowEntries (b : RowBlock) (r : Nat) : List (Nat × ℚ) :=
  let s := b.offset.getD r 0
  let e := b.offset.getD (r + 1) 0
  (List.range (e - s)).map (fun k =>
    (b.index.getD (s + k) 0,
     match b.value with
     | some v => v.getD (s + k) 0
     | none => 1))

/-- Modelled from the spec: the weighted sum a row of the block contributes in
the non-transposed multiply, reading the input vector through its position
mapping (negative positions are absent and contribute nothing). -/
def rowDot (b : RowBlock) (x : List ℚ) (x_pos : List Int) (r : Nat) : ℚ :=
  ((rowEntries b r).map (fun e =>
    match posMap x_pos e.1 with
    | none => 0
    | some xp => e.2 * x.getD xp 0)).sum

/-- Modelled from the spec: the total contribution accumulated into physical
output slot `j` by `SpMV::Times` (output restricted through `y_pos`). -/
def timesContrib (b : RowBlock) (x : List ℚ) (x_pos y_pos : List Int) (j : Nat) : ℚ :=
  ((List.range b.size).map (fun r =>
    if posMap y_pos r = some j then rowDot b x x_pos r else 0)).sum

/-- Modelled from the spec: the total contribution accumulated into physical
output slot `j` by `SpMV::TransTimes`: every row `r` whose input position is
active contributes `value * x (pos r)` to the slot its column maps to. -/
def transContrib (b : RowBlock) (x : List ℚ) (x_pos y_pos : List Int) (j : Nat) : ℚ :=
  ((List.range b.size).map (fun r =>
    match posMap x_pos r with
    | none => 0
    | some xr => ((rowEntries b r).map (fun e =>
        if posMap y_pos e.1 = some j then e.2 * x.getD xr 0 else 0)).sum)).sum

/-- Accumulate `f j` into slot `j` of a buffer (slot numbering starts at `k`):
the "accumulate, never overwrite" discipline of the multiply primitive. -/
def accumFrom (f : Nat → ℚ) (k : Nat) : List ℚ → List ℚ
  | [] => []
  | v :: t => (v + f k) :: accumFrom f (k + 1) t

namespace SpMV

/-- Modelled from the spec: `SpMV::Times(D, x, &y, nt, x_pos, y_pos)` computes
`y += D * x`, reading `x` through `x_pos` and writing `y` through `y_pos`. -/
def Times (b : RowBlock) (x y : List ℚ) (x_pos y_pos : List Int) : List ℚ :=
  accumFrom (timesContrib b x x_pos y_pos) 0 y

/-- Modelled from the spec: `SpMV::TransTimes(D, x, &y, nt, x_pos, y_pos)`
computes `y += Dᵀ * x`, reading `x` through `x_pos`, writing through `y_pos`. -/
def TransTimes (b : RowBlock) (x y : List ℚ) (x_pos y_pos : List Int) : List ℚ :=
  accumFrom (transContrib b x x_pos y_pos) 0 y

end SpMV

/-- One entry of the `std::vector<SArray<char>>` parameter list; the code
reinterprets each entry as either a `real_t` array or an `int` array. -/
inductive SArrayChar where
  | reals (v : List ℚ)
  | ints (v : List Int)
deriving Repr, DecidableEq

/-- The view `SArray<real_t>(param[k])` the code takes of a parameter. -/
def SArrayChar.asReal : SArrayChar → List ℚ
  | .reals v => v
  | .ints _ => []

/-- The view `SArray<int>(param[k])` the code takes of a parameter. -/
def SArrayChar.asInt : SArrayChar → List Int
  | .reals _ => []
  | .ints v => v

/-- The two configuration flags of `LogitLossDeltaParam` (both range `[0,1]`
in the C++ declaration, hence `Bool` here; field names keep the source's
spelling). -/
structure LogitLossDeltaParam where
  compute_diag_hession : Bool
  compute_upper_diag_hession : Bool
deriving Repr, DecidableEq

/-- Phase 1 of `CalcGrad` (lines 94-98): for each row `i` of the prediction
vector, `y = label[i] > 0 ? 1 : -1` and `p[i] = -y / (1 + exp(y * p[i]))`. -/
def tauTransform (ex : ℚ → ℚ) (label p : List ℚ) : List ℚ :=
  (List.range p.length).map (fun i =>
    let y : ℚ := if 0 < label.getD i 0 then 1 else -1;
    - y / (1 + ex (y * p.getD i 0)))

/-- Phase 2 of `CalcGrad` (lines 124-129): for each row `i`,
`tau = -y * p[i]` and `p[i] = tau * (1 - tau)`, where `p` currently holds the
phase-1 values. -/
def curvTransform (label p : List ℚ) : List ℚ :=
  (List.range p.length).map (fun i =>
    let y : ℚ := if 0 < label.getD i 0 then 1 else -1;
    let tau := - y * p.getD i 0
    tau * (1 - tau))

/-- The Hessian position mapping (lines 106-109): copy `grad_pos` and add 1 to
every non-negative entry. -/
def hPosOf (grad_pos : List Int) : List Int :=
  grad_pos.map (fun v => if 0 ≤ v then v + 1 else v)

/-- The squared block `XX` (lines 112-121): same structure, every value
squared (`xx_value[i] = value[i+start]^2` with `start = offset[0]`); when
`value` is null the block is left as is. -/
def squaredBlock (b : RowBlock) : RowBlock :=
  match b.value with
  | none => b
  | some v =>
    let start := b.offset.getD 0 0
    let n := b.offset.getD b.size 0 - start
    { b with value := some ((List.range n).map (fun i =>
        v.getD (i + start) 0 * v.getD (i + start) 0)) }

/-- `LogitLossDelta::Predict` (lines 57-65): checks `1 <= psize <= 2`, views
`param[0]` as the delta weight and `param[1]` (if present) as `w_pos`, and
accumulates `pred += X * delta_w` via `SpMV::TransTimes`. -/
def Predict (data : RowBlock) (param : List SArrayChar) (pred : List ℚ) :
    Option (List ℚ) :=
  let psize := param.length
  if 1 ≤ psize ∧ psize ≤ 2 then
    let delta_w := (param.getD 0 (.reals [])).asReal
    let w_pos := if psize = 2 then (param.getD 1 (.ints [])).asInt else []
    some (SpMV.TransTimes data delta_w pred w_pos [])
  else none

/-- `LogitLossDelta::CalcGrad` (lines 84-138): checks `1 <= psize <= 3` and a
non-null label; copies `param[0]` into `p` and applies the phase-1 transform;
accumulates the first-order gradient through `SpMV::Times` restricted by
`grad_pos`; returns unless a Hessian flag is set; otherwise builds `h_pos` and
`XX`, applies the phase-2 transform, and either accumulates the diagonal
Hessian (when `compute_diag_hession`) or checks `psize == 3` and does nothing
further (the upper-bound branch is an unimplemented stub). -/
def CalcGrad (ex : ℚ → ℚ) (cfg : LogitLossDeltaParam) (data : RowBlock)
    (param : List SArrayChar) (grad : List ℚ) : Option (List ℚ) :=
  let psize := param.length
  if 1 ≤ psize ∧ psize ≤ 3 then
    match data.label with
    | none => none
    | some label =>
      let p := tauTransform ex label (param.getD 0 (.reals [])).asReal
      let grad_pos := if 1 < psize then (param.getD 1 (.ints [])).asInt else []
      let grad1 := SpMV.Times data p grad [] grad_pos
      if cfg.compute_diag_hession = false ∧ cfg.compute_upper_diag_hession = false then
        some grad1
      else
        let h_pos := hPosOf grad_pos
        let XX := squaredBlock data
        let p2 := curvTransform label p
        if cfg.compute_diag_hession then
          some (SpMV.Times XX p2 grad1 [] h_pos)
        else
          if psize = 3 then some grad1 else none
  else none

/-- The sign of a rational number as a rational (`1`, `-1` or `0`). -/
def qsign (q : ℚ) : ℚ :=
  if 0 < q then 1 else if q < 0 then -1 else 0

/-- The sign of a label under the spec's sign-encoding (section 3:
`label > 0` means the positive class, anything else the negative class);
this is the `y` of the per-row transform. -/
def signEncode (l : ℚ) : ℚ :=
  if 0 < l then 1 else -1

/-- The curvature weights as claim C2 words them: recompute
`tau_i = -y / (1 + exp(y * pred[i]))` exactly as in phase 1 from the original
`pred[i]`, then set `p_i = tau_i * (1 - tau_i)`.  (This is the claim's
formula, kept separate so it can be compared with `curvTransform`, the one
the code computes.) -/
def claimedCurvWeights (ex : ℚ → ℚ) (label pred : List ℚ) : List ℚ :=
  (List.range pred.length).map (fun i =>
    let y : ℚ := if 0 < label.getD i 0 then 1 else -1;
    let tau := - y / (1 + ex (y * pred.getD i 0))
    tau * (1 - tau))

/-- The 2-row, 2-column block of the end-to-end scenario:
`value = [1,1,1,1]`, `label = [+1,-1]`. -/
def scenarioBlock : RowBlock :=
  { size := 2, offset := [0, 2, 4], index := [0, 1, 0, 1],
    value := some [1, 1, 1, 1], label := some [1, -1] }

/-! ### A store-passing model for the frame claims

The functional definitions above cannot distinguish "the code copied this
buffer before writing it" from "the code wrote the caller's buffer", so the
mutation discipline is re-traced on an explicit heap: buffers live in a store
of `real_t` cells and `int` cells addressed by handles, `SArray::CopyFrom`
allocates a fresh cell, and every write the C++ performs becomes a `writeR` /
`writeI` on the handle the C++ writes through. -/

/-- A store of `real_t` buffers and `int` buffers, addressed by index. -/
structure Heap where
  reals : List (List ℚ)
  ints : List (List Int)
deriving Repr, DecidableEq

/-- Read the `real_t` buffer behind handle `i` (a dangling handle reads as
the empty buffer). -/
def Heap.readR (h : Heap) (i : Nat) : List ℚ := h.reals.getD i []

/-- Read the `int` buffer behind handle `i`. -/
def Heap.readI (h : Heap) (i : Nat) : List Int := h.ints.getD i []

/-- Overwrite the `real_t` buffer behind handle `i`. -/
def Heap.writeR (h : Heap) (i : Nat) (v : List ℚ) : Heap :=
  { h with reals := h.reals.set i v }

/-- Overwrite the `int` buffer behind handle `i`. -/
def Heap.writeI (h : Heap) (i : Nat) (v : List Int) : Heap :=
  { h with ints := h.ints.set i v }

/-- Allocate a fresh `real_t` buffer (this is what `SArray::CopyFrom` and
`SArray::resize` do); returns the new heap and the fresh handle. -/
def Heap.allocR (h : Heap) (v : List ℚ) : Heap × Nat :=
  ({ h with reals := h.reals ++ [v] }, h.reals.length)

/-- Allocate a fresh `int` buffer. -/
def Heap.allocI (h : Heap) (v : List Int) : Heap × Nat :=
  ({ h with ints := h.ints ++ [v] }, h.ints.length)

/-- A `dmlc::RowBlock` whose arrays live in the heap: `offset` and `index`
are `int` cells, `value` and `label` are optional `real_t` cells (a `none`
is a null pointer). -/
structure RowBlockRef where
  size : Nat
  offsetH : Nat
  indexH : Nat
  valueH : Option Nat
  labelH : Option Nat
deriving Repr, DecidableEq

/-- Dereference a block: read its arrays out of the heap. -/
def derefBlock (h : Heap) (br : RowBlockRef) : RowBlock :=
  { size := br.size,
    offset := (h.readI br.offsetH).map Int.toNat,
    index := (h.readI br.indexH).map Int.toNat,
    value := br.valueH.map h.readR,
    label := br.labelH.map h.readR }

/-- One entry of the parameter list, by reference: a handle into the
`real_t` store or into the `int` store. -/
inductive ParamRef where
  | realsH (n : Nat)
  | intsH (n : Nat)
deriving Repr, DecidableEq

/-- The `SArray<real_t>(param[k])` view, by reference (no copy). -/
def argR (h : Heap) (param : List ParamRef) (k : Nat) : List ℚ :=
  match param[k]? with
  | some (.realsH n) => h.readR n
  | _ => []

/-- The `SArray<int>(param[k])` view, by reference (no copy). -/
def argI (h : Heap) (param : List ParamRef) (k : Nat) : List Int :=
  match param[k]? with
  | some (.intsH n) => h.readI n
  | _ => []

/-- `LogitLossDelta::Predict` on the heap: the only write is the
accumulation into the output buffer `predH` (the spec's contract for
`SpMV::TransTimes` is that it accumulates into its output argument only). -/
def PredictH (br : RowBlockRef) (param : List ParamRef) (predH : Nat)
    (h0 : Heap) : Option Heap :=
  let psize := param.length
  if 1 ≤ psize ∧ psize ≤ 2 then
    let delta_w := argR h0 param 0
    let w_pos := if psize = 2 then argI h0 param 1 else []
    some (h0.writeR predH
      (SpMV.TransTimes (derefBlock h0 br) delta_w (h0.readR predH) w_pos []))
  else none

/-- `LogitLossDelta::CalcGrad` on the heap, write for write with the C++:
`p.CopyFrom(param[0])` allocates a fresh cell and the phase-1/phase-2 loops
write it in place; the two `SpMV::Times` calls write the output buffer
`gradH`; `h_pos.CopyFrom(grad_pos)` allocates a fresh `int` cell which the
`+1` loop then writes in place; `xx_value` is a fresh cell and `XX` borrows
the block's structure with only the value handle replaced. -/
def CalcGradH (ex : ℚ → ℚ) (cfg : LogitLossDeltaParam) (br : RowBlockRef)
    (param : List ParamRef) (gradH : Nat) (h0 : Heap) : Option Heap :=
  let psize := param.length
  if 1 ≤ psize ∧ psize ≤ 3 then
    let a1 := h0.allocR (argR h0 param 0)
    let h1 := a1.1
    let pH := a1.2
    match (derefBlock h1 br).label with
    | none => none
    | some label =>
      let h2 := h1.writeR pH (tauTransform ex label (h1.readR pH))
      let grad_pos := if 1 < psize then argI h2 param 1 else []
      let h3 := h2.writeR gradH
        (SpMV.Times (derefBlock h2 br) (h2.readR pH) (h2.readR gradH) [] grad_pos)
      if cfg.compute_diag_hession = false ∧ cfg.compute_upper_diag_hession = false then
        some h3
      else
        let a2 := h3.allocI grad_pos
        let h4 := a2.1
        let hposH := a2.2
        let h5 := h4.writeI hposH (hPosOf (h4.readI hposH))
        let a3 : Heap × RowBlockRef :=
          match br.valueH with
          | none => (h5, br)
          | some _ =>
            let a := h5.allocR (((squaredBlock (derefBlock h5 br)).value).getD [])
            (a.1, { br with valueH := some a.2 })
        let h6 := a3.1
        let xxRef := a3.2
        let h7 := h6.writeR pH
          (curvTransform ((derefBlock h6 br).label.getD []) (h6.readR pH))
        if cfg.compute_diag_hession then
          some (h7.writeR gradH
            (SpMV.Times (derefBlock h7 xxRef) (h7.readR pH) (h7.readR gradH) []
              (h7.readI hposH)))
        else
          if psize = 3 then some h7 else none
  else none

/-! ### Helper lemmas -/

theorem accumFrom_length (f : Nat → ℚ) (k : Nat) (y : List ℚ) :
    (accumFrom f k y).length = y.length := by
  induction y generalizing k with
  | nil => rfl
  | cons v t ih => simp [accumFrom, ih]

theorem accumFrom_getD (f : Nat → ℚ) (k : Nat) (y : List ℚ) (i : Nat) :
    (accumFrom f k y).getD i 0 =
      y.getD i 0 + (if i < y.length then f (k + i) else 0) := by
  induction y generalizing k i with
  | nil => simp [accumFrom]
  | cons v t ih =>
    cases i with
    | zero => simp [accumFrom]
    | succ n =>
      simp only [accumFrom, List.getD_cons_succ, List.length_cons, ih,
        Nat.succ_lt_succ_iff]
      have : k + 1 + n = k + (n + 1) := by omega
      rw [this]

theorem accumFrom_comp (f g : Nat → ℚ) (k : Nat) (y : List ℚ) :
    accumFrom f k (accumFrom g k y) = accumFrom (fun i => g i + f i) k y := by
  induction y generalizing k with
  | nil => rfl
  | cons v t ih => simp [accumFrom, ih, add_assoc]

theorem accumFrom_congr (f g : Nat → ℚ) (h : ∀ i, f i = g i) (k : Nat)
    (y : List ℚ) : accumFrom f k y = accumFrom g k y := by
  induction y generalizing k with
  | nil => rfl
  | cons v t ih => simp [accumFrom, ih, h]

theorem getD_map_half (l : List ℚ) (i : Nat) :
    (l.map (fun v => v / 2)).getD i 0 = l.getD i 0 / 2 := by
  simp only [List.getD_eq_getElem?_getD, List.getElem?_map]
  cases l[i]? <;> simp

theorem sum_map_half {α : Type} (l : List α) (f : α → ℚ) :
    (l.map (fun a => f a / 2)).sum = (l.map f).sum / 2 := by
  induction l with
  | nil => simp
  | cons a t ih => simp [ih, add_div]

theorem transContrib_half (b : RowBlock) (dw : List ℚ) (xp yp : List Int)
    (j : Nat) :
    transContrib b (dw.map (fun v => v / 2)) xp yp j =
      transContrib b dw xp yp j / 2 := by
  unfold transContrib
  rw [← sum_map_half]
  apply congrArg
  apply List.map_congr_left
  intro r _
  cases posMap xp r with
  | none => simp
  | some xr =>
    simp only
    rw [← sum_map_half]
    apply congrArg
    apply List.map_congr_left
    intro e _
    by_cases hc : posMap yp e.1 = some j
    · rw [getD_map_half]
      simp [hc, mul_div_assoc]
    · simp [hc]

theorem timesContrib_eq_zero (b : RowBlock) (x : List ℚ) (xp yp : List Int)
    (j : Nat) (h : ∀ r, posMap yp r ≠ some j) :
    timesContrib b x xp yp j = 0 := by
  unfold timesContrib
  apply List.sum_eq_zero
  intro q hq
  rcases List.mem_map.mp hq with ⟨r, _, hr⟩
  simp [h r] at hr
  exact hr.symm

theorem tauTransform_length (ex : ℚ → ℚ) (label p : List ℚ) :
    (tauTransform ex label p).length = p.length := by
  simp [tauTransform]

theorem curvTransform_length (label p : List ℚ) :
    (curvTransform label p).length = p.length := by
  simp [curvTransform]

theorem tauTransform_getD (ex : ℚ → ℚ) (label p : List ℚ) (i : Nat)
    (hi : i < p.length) :
    (tauTransform ex label p).getD i 0 =
      - signEncode (label.getD i 0) /
        (1 + ex (signEncode (label.getD i 0) * p.getD i 0)) := by
  simp [tauTransform, signEncode, List.getD_eq_getElem?_getD, List.getElem?_map,
    List.getElem?_range, hi]

theorem curvTransform_getD (label p : List ℚ) (i : Nat) (hi : i < p.length) :
    (curvTransform label p).getD i 0 =
      (- signEncode (label.getD i 0) * p.getD i 0) *
        (1 - (- signEncode (label.getD i 0) * p.getD i 0)) := by
  simp [curvTransform, signEncode, List.getD_eq_getElem?_getD, List.getElem?_map,
    List.getElem?_range, hi]

theorem signEncode_cases (l : ℚ) : signEncode l = 1 ∨ signEncode l = -1 := by
  unfold signEncode
  by_cases h : 0 < l <;> simp [h]

/-! ### Claim theorems -/

/-- C4: for every row `i`, the phase-1 value `tau_i` computed by `CalcGrad`
satisfies `0 ≤ |tau_i| ≤ 1`, and its sign is the negation of the label's
sign, where labels are read through the spec's sign-encoding (`signEncode`:
positive class iff `label > 0`, else negative).  Of `exp` only positivity is
assumed. -/
theorem calcGrad_tau_bounded_and_sign (ex : ℚ → ℚ) (hex : ∀ x, 0 < ex x)
    (label p : List ℚ) (i : Nat) (hi : i < p.length) :
    0 ≤ |(tauTransform ex label p).getD i 0| ∧
    |(tauTransform ex label p).getD i 0| ≤ 1 ∧
    qsign ((tauTransform ex label p).getD i 0) =
      - signEncode (label.getD i 0) := by
  rw [tauTransform_getD ex label p i hi]
  have hE : 0 < ex (signEncode (label.getD i 0) * p.getD i 0) := hex _
  set E := ex (signEncode (label.getD i 0) * p.getD i 0) with hEdef
  have hd : (0 : ℚ) < 1 + E := by linarith
  have hpos : (0 : ℚ) < 1 / (1 + E) := by positivity
  have hle : 1 / (1 + E) ≤ 1 := by
    rw [div_le_one hd]; linarith
  rcases signEncode_cases (label.getD i 0) with h | h <;> rw [h]
  · have habs : |(-1 : ℚ) / (1 + E)| = 1 / (1 + E) := by
      rw [neg_div, abs_neg, abs_of_pos hpos]
    have hneg : (-1 : ℚ) / (1 + E) < 0 := by
      rw [neg_div]; linarith
    refine ⟨abs_nonneg _, by rw [habs]; exact hle, ?_⟩
    unfold qsign
    rw [if_neg (by linarith), if_pos hneg]
  · rw [neg_neg]
    have habs : |(1 : ℚ) / (1 + E)| = 1 / (1 + E) := abs_of_pos hpos
    refine ⟨abs_nonneg _, by rw [habs]; exact hle, ?_⟩
    unfold qsign
    rw [if_pos hpos]

/-- C3: for every row `i` and every prediction, the curvature weight
`p_i` computed by `CalcGrad`'s phase 2 lies in `[0, 1/4]`; of `exp` only
positivity is assumed, so the bound holds for arbitrarily large positive or
negative predictions. -/
theorem calcGrad_curv_weight_bounds (ex : ℚ → ℚ) (hex : ∀ x, 0 < ex x)
    (label pred : List ℚ) (i : Nat) (hi : i < pred.length) :
    0 ≤ (curvTransform label (tauTransform ex label pred)).getD i 0 ∧
    (curvTransform label (tauTransform ex label pred)).getD i 0 ≤ 1 / 4 := by
  have hi' : i < (tauTransform ex label pred).length := by
    rw [tauTransform_length]; exact hi
  rw [curvTransform_getD _ _ _ hi', tauTransform_getD _ _ _ _ hi]
  have hE : 0 < ex (signEncode (label.getD i 0) * pred.getD i 0) := hex _
  set E := ex (signEncode (label.getD i 0) * pred.getD i 0) with hEdef
  have hd : (0 : ℚ) < 1 + E := by linarith
  have hrw : - signEncode (label.getD i 0) *
      (- signEncode (label.getD i 0) / (1 + E)) = 1 / (1 + E) := by
    rcases signEncode_cases (label.getD i 0) with h | h <;> rw [h] <;> ring
  rw [hrw]
  set s : ℚ := 1 / (1 + E) with hs
  have hs0 : 0 < s := by positivity
  have hs1 : s ≤ 1 := by rw [hs, div_le_one hd]; linarith
  constructor
  · exact mul_nonneg hs0.le (by linarith)
  · nlinarith [sq_nonneg (s - 1 / 2)]

/-- C2 counterexample: at `label = [1]`, `pred = [0]` and an `exp` with
`exp 0 = 1`, the curvature weight the code computes (`1/4`) differs from the
claim's formula `tau_1 * (1 - tau_1)` with `tau_1 = -y/(1+exp(y*pred))` the
signed phase-1 value (which gives `-3/4`). -/
theorem calcGrad_curv_weight_claim_false :
    curvTransform [1] (tauTransform (fun _ => 1) [1] [0]) ≠
      claimedCurvWeights (fun _ => 1) [1] [0] := by
  norm_num [curvTransform, tauTransform, claimedCurvWeights, List.range_succ]

/-- C2 amended: phase 2 recovers the positive sigmoid value
`sigma_i = -y * tau_i = 1/(1+exp(y*pred[i]))` from the stored phase-1 value
and sets `p_i = sigma_i * (1 - sigma_i)` (not `tau_i * (1 - tau_i)` with the
signed `tau_i` of phase 1). -/
theorem calcGrad_curv_weight_formula (ex : ℚ → ℚ) (label pred : List ℚ)
    (i : Nat) (hi : i < pred.length) :
    (curvTransform label (tauTransform ex label pred)).getD i 0 =
      1 / (1 + ex (signEncode (label.getD i 0) * pred.getD i 0)) *
        (1 - 1 / (1 + ex (signEncode (label.getD i 0) * pred.getD i 0))) := by
  have hi' : i < (tauTransform ex label pred).length := by
    rw [tauTransform_length]; exact hi
  rw [curvTransform_getD _ _ _ hi', tauTransform_getD _ _ _ _ hi]
  rcases signEncode_cases (label.getD i 0) with h | h <;> rw [h] <;> ring

/-- Witness for C4 at `label = [1]`, `pred = [0]`, `exp = const 1`. -/
theorem calcGrad_tau_bounded_and_sign_witness :
    0 ≤ |(tauTransform (fun _ => 1) [1] [0]).getD 0 0| ∧
    |(tauTransform (fun _ => 1) [1] [0]).getD 0 0| ≤ 1 ∧
    qsign ((tauTransform (fun _ => 1) [1] [0]).getD 0 0) =
      - signEncode (([1] : List ℚ).getD 0 0) :=
  calcGrad_tau_bounded_and_sign (fun _ => 1) (fun _ => by norm_num) [1] [0] 0
    (by norm_num)

/-- Witness for C3 at `label = [1]`, `pred = [0]`, `exp = const 1`. -/
theorem calcGrad_curv_weight_bounds_witness :
    0 ≤ (curvTransform [1] (tauTransform (fun _ => 1) [1] [0])).getD 0 0 ∧
    (curvTransform [1] (tauTransform (fun _ => 1) [1] [0])).getD 0 0 ≤ 1 / 4 :=
  calcGrad_curv_weight_bounds (fun _ => 1) (fun _ => by norm_num) [1] [0] 0
    (by norm_num)

/-- Witness for the amended C2 at `label = [1]`, `pred = [0]`,
`exp = const 1`. -/
theorem calcGrad_curv_weight_formula_witness :
    (curvTransform [1] (tauTransform (fun _ => 1) [1] [0])).getD 0 0 =
      1 / (1 + (fun _ => (1 : ℚ)) (signEncode (([1] : List ℚ).getD 0 0) * ([0] : List ℚ).getD 0 0)) *
        (1 - 1 / (1 + (fun _ => (1 : ℚ)) (signEncode (([1] : List ℚ).getD 0 0) * ([0] : List ℚ).getD 0 0))) :=
  calcGrad_curv_weight_formula (fun _ => 1) [1] [0] 0 (by norm_num)

/-- C1: the end-to-end scenario on the 2-row, 2-column block with
`value = [1,1,1,1]`, `label = [+1,-1]`, `pred = [0,0]`, `delta_w = [0,0]`:
`Predict` leaves `pred` at `[0,0]`; `CalcGrad` with `compute_diag_hession` set
(and either value of the other flag) computes `tau = [-1/2, 1/2]`, a per-row
curvature weight of `1/4`, and — with `grad_pos = [0,2]`, hence
`h_pos = [1,3]` — a first-order gradient of `0` in each gradient slot and the
accumulated curvature `1/2` in each `h_pos` slot.  Of `exp` only `exp 0 = 1`
is assumed (true of the C `exp`). -/
theorem logitLossDelta_end_to_end (ex : ℚ → ℚ) (h1 : ex 0 = 1) (u : Bool) :
    Predict scenarioBlock [.reals [0, 0]] [0, 0] = some [0, 0] ∧
    tauTransform ex [1, -1] [0, 0] = [-(1 / 2), 1 / 2] ∧
    curvTransform [1, -1] (tauTransform ex [1, -1] [0, 0]) = [1 / 4, 1 / 4] ∧
    CalcGrad ex ⟨true, u⟩ scenarioBlock [.reals [0, 0], .ints [0, 2]]
      [0, 0, 0, 0] = some [0, 1 / 2, 0, 1 / 2] := by
  refine ⟨?_, ?_, ?_, ?_⟩
  · norm_num [Predict, SpMV.TransTimes, accumFrom, transContrib, rowEntries, posMap,
      scenarioBlock, List.range_succ, SArrayChar.asReal, SArrayChar.asInt]
  · norm_num [tauTransform, List.range_succ, h1]
  · norm_num [curvTransform, tauTransform, List.range_succ, h1]
  · norm_num [CalcGrad, SpMV.Times, accumFrom, timesContrib, rowDot, rowEntries, posMap,
      tauTransform, curvTransform, hPosOf, squaredBlock, scenarioBlock, List.range_succ,
      SArrayChar.asReal, SArrayChar.asInt, h1]
    decide

/-- Witness for C1 with `exp = const 1` and the upper flag at its default. -/
theorem logitLossDelta_end_to_end_witness :
    Predict scenarioBlock [.reals [0, 0]] [0, 0] = some [0, 0] ∧
    tauTransform (fun _ => 1) [1, -1] [0, 0] = [-(1 / 2), 1 / 2] ∧
    curvTransform [1, -1] (tauTransform (fun _ => 1) [1, -1] [0, 0]) = [1 / 4, 1 / 4] ∧
    CalcGrad (fun _ => 1) ⟨true, true⟩ scenarioBlock [.reals [0, 0], .ints [0, 2]]
      [0, 0, 0, 0] = some [0, 1 / 2, 0, 1 / 2] :=
  logitLossDelta_end_to_end (fun _ => 1) rfl true

/-- C5: `Predict` accumulates into `pred` (each output slot ends up as its
old value plus the block's contribution, rather than being overwritten), and
the accumulation is linear: one call with `delta_w` equals two calls with
`delta_w / 2`, both without and with a position mapping (exact in `ℚ`, which
models "up to floating-point summation order"). -/
theorem predict_accumulates_linearly (data : RowBlock) (dw pred : List ℚ)
    (wp : List Int) :
    (∀ r, Predict data [.reals dw] pred = some r →
      ∀ j, j < pred.length →
        r.getD j 0 = pred.getD j 0 + transContrib data dw [] [] j) ∧
    (Predict data [.reals (dw.map (fun v => v / 2))] pred).bind
        (fun q => Predict data [.reals (dw.map (fun v => v / 2))] q) =
      Predict data [.reals dw] pred ∧
    (Predict data [.reals (dw.map (fun v => v / 2)), .ints wp] pred).bind
        (fun q => Predict data [.reals (dw.map (fun v => v / 2)), .ints wp] q) =
      Predict data [.reals dw, .ints wp] pred := by
  refine ⟨?_, ?_, ?_⟩
  · intro r hr j hj
    have hr' : r = SpMV.TransTimes data dw pred [] [] := by
      simpa [Predict, SArrayChar.asReal] using hr.symm
    subst hr'
    rw [SpMV.TransTimes, accumFrom_getD]
    simp [hj]
  · simp only [Predict, List.length_cons, List.length_nil, SArrayChar.asReal,
      List.getD_cons_zero, Option.bind_some]
    norm_num
    rw [SpMV.TransTimes, SpMV.TransTimes, SpMV.TransTimes, accumFrom_comp]
    apply accumFrom_congr
    intro i
    rw [transContrib_half]
    ring
  · simp only [Predict, List.length_cons, List.length_nil, SArrayChar.asReal,
      SArrayChar.asInt, List.getD_cons_zero, List.getD_cons_succ, Option.bind_some]
    norm_num
    rw [SpMV.TransTimes, SpMV.TransTimes, SpMV.TransTimes, accumFrom_comp]
    apply accumFrom_congr
    intro i
    rw [transContrib_half]
    ring

/-- Witness for C5 on the scenario block with `delta_w = [1,2]`,
`pred = [3,4]`. -/
theorem predict_accumulates_linearly_witness :
    ([6, 7] : List ℚ).getD 0 0 =
      ([3, 4] : List ℚ).getD 0 0 + transContrib scenarioBlock [1, 2] [] [] 0 ∧
    (Predict scenarioBlock [.reals ([1, 2].map (fun v => v / 2))] [3, 4]).bind
        (fun q => Predict scenarioBlock [.reals ([1, 2].map (fun v => v / 2))] q) =
      Predict scenarioBlock [.reals [1, 2]] [3, 4] :=
  ⟨(predict_accumulates_linearly scenarioBlock [1, 2] [3, 4] [0, 1]).1 [6, 7]
      (by norm_num [Predict, SpMV.TransTimes, accumFrom, transContrib, rowEntries,
        posMap, scenarioBlock, List.range_succ, SArrayChar.asReal]) 0 (by norm_num),
    (predict_accumulates_linearly scenarioBlock [1, 2] [3, 4] [0, 1]).2.1⟩

/-- C6 counterexample: with both flags set and a parameter list of size 1
(different from 3), `CalcGrad` does not fail — the diagonal branch runs and
the `CHECK_EQ(psize, 3)` of the upper-bound branch is never reached — so
"for every call with `compute_upper_diag_hession` set, `psize != 3` is a
fatal precondition failure" is false as stated. -/
theorem calcGrad_upper_check_not_reached :
    CalcGrad (fun _ => 1) ⟨true, true⟩ scenarioBlock [.reals [0, 0]] [0, 0] =
      some [1 / 2, 1 / 2] := by
  norm_num [CalcGrad, SpMV.Times, accumFrom, timesContrib, rowDot, rowEntries, posMap,
    tauTransform, curvTransform, hPosOf, squaredBlock, scenarioBlock, List.range_succ,
    SArrayChar.asReal, SArrayChar.asInt]

/-- C6 amended: `CalcGrad` fails fatally when the parameter list size is
outside `[1,3]` or the label is null; and when `compute_upper_diag_hession`
is set while `compute_diag_hession` is unset (so the upper-bound branch is
the one that executes), a parameter list size different from 3 is a fatal
precondition failure. -/
theorem calcGrad_checks (ex : ℚ → ℚ) (cfg : LogitLossDeltaParam)
    (data : RowBlock) (param : List SArrayChar) (grad : List ℚ) :
    ((param.length < 1 ∨ 3 < param.length) →
      CalcGrad ex cfg data param grad = none) ∧
    (data.label = none → CalcGrad ex cfg data param grad = none) ∧
    (cfg.compute_upper_diag_hession = true → cfg.compute_diag_hession = false →
      param.length ≠ 3 → CalcGrad ex cfg data param grad = none) := by
  refine ⟨?_, ?_, ?_⟩
  · intro h
    have hp : ¬ (1 ≤ param.length ∧ param.length ≤ 3) := by omega
    simp [CalcGrad, hp]
  · intro h
    by_cases hp : 1 ≤ param.length ∧ param.length ≤ 3
    · simp [CalcGrad, hp, h]
    · simp [CalcGrad, hp]
  · intro hu hd hne
    by_cases hp : 1 ≤ param.length ∧ param.length ≤ 3
    · cases hl : data.label with
      | none => simp [CalcGrad, hp, hl]
      | some l => simp [CalcGrad, hp, hl, hu, hd, hne]
    · simp [CalcGrad, hp]

/-- Witness for the amended C6: a size-0 parameter list, a null label, and
the upper-bound configuration with `psize = 1` each produce a fatal failure. -/
theorem calcGrad_checks_witness :
    CalcGrad (fun _ => 1) ⟨false, true⟩ scenarioBlock [] [] = none ∧
    CalcGrad (fun _ => 1) ⟨false, true⟩
      ⟨2, [0, 2, 4], [0, 1, 0, 1], some [1, 1, 1, 1], none⟩
      [.reals [0, 0]] [0, 0] = none ∧
    CalcGrad (fun _ => 1) ⟨false, true⟩ scenarioBlock [.reals [0, 0]] [0, 0] =
      none :=
  ⟨(calcGrad_checks _ _ _ _ _).1 (by norm_num),
   (calcGrad_checks _ _ _ _ _).2.1 rfl,
   (calcGrad_checks _ _ _ _ _).2.2 rfl rfl (by norm_num)⟩

/-- C7: setting both curvature flags is legal — such a call succeeds on any
well-formed input — and exactly one curvature path executes: the call behaves
identically to a call with only `compute_diag_hession` set (the diagonal path
takes precedence over the upper-bound path). -/
theorem calcGrad_diag_precedence (ex : ℚ → ℚ) (data : RowBlock)
    (param : List SArrayChar) (grad : List ℚ) :
    CalcGrad ex ⟨true, true⟩ data param grad =
      CalcGrad ex ⟨true, false⟩ data param grad ∧
    (1 ≤ param.length → param.length ≤ 3 → data.label ≠ none →
      (CalcGrad ex ⟨true, true⟩ data param grad).isSome = true) := by
  constructor
  · by_cases hp : 1 ≤ param.length ∧ param.length ≤ 3
    · cases hl : data.label with
      | none => simp [CalcGrad, hp, hl]
      | some l => simp [CalcGrad, hp, hl]
    · simp [CalcGrad, hp]
  · intro h1 h3 hl
    cases hlab : data.label with
    | none => exact absurd hlab hl
    | some l => simp [CalcGrad, hlab, h1, h3]

/-- Witness for C7 on the scenario block. -/
theorem calcGrad_diag_precedence_witness :
    CalcGrad (fun _ => 1) ⟨true, true⟩ scenarioBlock [.reals [0, 0]] [0, 0] =
      CalcGrad (fun _ => 1) ⟨true, false⟩ scenarioBlock [.reals [0, 0]] [0, 0] ∧
    (CalcGrad (fun _ => 1) ⟨true, true⟩ scenarioBlock
      [.reals [0, 0]] [0, 0]).isSome = true :=
  ⟨(calcGrad_diag_precedence _ _ _ _).1,
   (calcGrad_diag_precedence _ _ _ _).2 (by norm_num) (by norm_num)
     (by simp [scenarioBlock])⟩

/-- C8: with `compute_upper_diag_hession` set, `compute_diag_hession` unset
and a third parameter supplied, `CalcGrad` does not fail, performs no
curvature update (it returns exactly what the first-order-only configuration
returns), and every output slot that is not a gradient target — in particular
every Hessian slot of the caller's `2x` layout — keeps its pre-call value. -/
theorem calcGrad_upper_branch_stub (ex : ℚ → ℚ) (data : RowBlock)
    (pr dl grad : List ℚ) (gp : List Int) (l : List ℚ)
    (hl : data.label = some l) :
    (CalcGrad ex ⟨false, true⟩ data [.reals pr, .ints gp, .reals dl]
      grad).isSome = true ∧
    CalcGrad ex ⟨false, true⟩ data [.reals pr, .ints gp, .reals dl] grad =
      CalcGrad ex ⟨false, false⟩ data [.reals pr, .ints gp, .reals dl] grad ∧
    ∀ j, (∀ r, posMap gp r ≠ some j) →
      ((CalcGrad ex ⟨false, true⟩ data [.reals pr, .ints gp, .reals dl]
        grad).getD []).getD j 0 = grad.getD j 0 := by
  have hred : CalcGrad ex ⟨false, true⟩ data [.reals pr, .ints gp, .reals dl]
      grad = some (SpMV.Times data (tauTransform ex l pr) grad [] gp) := by
    simp [CalcGrad, hl, SArrayChar.asReal, SArrayChar.asInt]
  refine ⟨by rw [hred]; rfl, ?_, ?_⟩
  · rw [hred]
    simp [CalcGrad, hl, SArrayChar.asReal, SArrayChar.asInt]
  · intro j hj
    rw [hred, Option.getD_some, SpMV.Times, accumFrom_getD]
    simp only [Nat.zero_add]
    rw [timesContrib_eq_zero data (tauTransform ex l pr) [] gp j hj]
    simp

/-- Witness for C8 on the scenario block with `grad_pos = [0,2]`: the Hessian
slot 1 keeps its pre-call value 6. -/
theorem calcGrad_upper_branch_stub_witness :
    (CalcGrad (fun _ => 1) ⟨false, true⟩ scenarioBlock
      [.reals [0, 0], .ints [0, 2], .reals [9]] [5, 6, 7, 8]).isSome = true ∧
    ((CalcGrad (fun _ => 1) ⟨false, true⟩ scenarioBlock
      [.reals [0, 0], .ints [0, 2], .reals [9]] [5, 6, 7, 8]).getD []).getD 1 0 =
      ([5, 6, 7, 8] : List ℚ).getD 1 0 :=
  ⟨(calcGrad_upper_branch_stub (fun _ => 1) scenarioBlock [0, 0] [9] [5, 6, 7, 8]
      [0, 2] [1, -1] rfl).1,
   (calcGrad_upper_branch_stub (fun _ => 1) scenarioBlock [0, 0] [9] [5, 6, 7, 8]
      [0, 2] [1, -1] rfl).2.2 1
      (by intro r; rcases r with _ | _ | n <;> simp [posMap])⟩

/-- C10: with a size-1 parameter list (no gradient position mapping) and
`compute_diag_hession` set, the Hessian mapping derived from the empty
`grad_pos` is itself empty (the identity), so the diagonal Hessian
accumulates into the very same output slots as the first-order gradient:
each output entry ends up as old value + gradient contribution + Hessian
contribution, both contributions at the same index `j` (not `j + 1`). -/
theorem calcGrad_identity_h_pos (ex : ℚ → ℚ) (data : RowBlock)
    (pr grad l : List ℚ) (u : Bool) (hl : data.label = some l) :
    hPosOf [] = [] ∧
    (CalcGrad ex ⟨true, u⟩ data [.reals pr] grad).isSome = true ∧
    ∀ j, j < grad.length →
      ((CalcGrad ex ⟨true, u⟩ data [.reals pr] grad).getD []).getD j 0 =
        grad.getD j 0 + timesContrib data (tauTransform ex l pr) [] [] j +
          timesContrib (squaredBlock data)
            (curvTransform l (tauTransform ex l pr)) [] [] j := by
  have hred : CalcGrad ex ⟨true, u⟩ data [.reals pr] grad =
      some (SpMV.Times (squaredBlock data)
        (curvTransform l (tauTransform ex l pr))
        (SpMV.Times data (tauTransform ex l pr) grad [] []) [] []) := by
    simp [CalcGrad, hl, SArrayChar.asReal, hPosOf]
  refine ⟨rfl, by rw [hred]; rfl, ?_⟩
  intro j hj
  have hlen : (SpMV.Times data (tauTransform ex l pr) grad [] []).length =
      grad.length := accumFrom_length _ _ _
  rw [hred, Option.getD_some, SpMV.Times, accumFrom_getD, hlen, if_pos hj,
    SpMV.Times, accumFrom_getD, if_pos hj]
  simp [Nat.zero_add]

/-- Witness for C10 on the scenario block: with no position mapping both the
gradient and the Hessian land in slot 0 (and slot 1), summed. -/
theorem calcGrad_identity_h_pos_witness :
    hPosOf [] = [] ∧
    (CalcGrad (fun _ => 1) ⟨true, true⟩ scenarioBlock [.reals [0, 0]]
      [0, 0]).isSome = true ∧
    ((CalcGrad (fun _ => 1) ⟨true, true⟩ scenarioBlock [.reals [0, 0]]
      [0, 0]).getD []).getD 0 0 =
      ([0, 0] : List ℚ).getD 0 0 +
        timesContrib scenarioBlock
          (tauTransform (fun _ => 1) [1, -1] [0, 0]) [] [] 0 +
        timesContrib (squaredBlock scenarioBlock)
          (curvTransform [1, -1] (tauTransform (fun _ => 1) [1, -1] [0, 0]))
          [] [] 0 :=
  ⟨(calcGrad_identity_h_pos (fun _ => 1) scenarioBlock [0, 0] [0, 0] [1, -1]
      true rfl).1,
   (calcGrad_identity_h_pos (fun _ => 1) scenarioBlock [0, 0] [0, 0] [1, -1]
      true rfl).2.1,
   (calcGrad_identity_h_pos (fun _ => 1) scenarioBlock [0, 0] [0, 0] [1, -1]
      true rfl).2.2 0 (by norm_num)⟩

/-! ### Heap access lemmas for the frame claim -/

theorem Heap.readR_writeR_ne (h : Heap) (j : Nat) (v : List ℚ) (i : Nat)
    (hij : i ≠ j) : (h.writeR j v).readR i = h.readR i := by
  simp [Heap.readR, Heap.writeR, List.getD_eq_getElem?_getD,
    List.getElem?_set_ne (Ne.symm hij)]

theorem Heap.readI_writeI_ne (h : Heap) (j : Nat) (v : List Int) (i : Nat)
    (hij : i ≠ j) : (h.writeI j v).readI i = h.readI i := by
  simp [Heap.readI, Heap.writeI, List.getD_eq_getElem?_getD,
    List.getElem?_set_ne (Ne.symm hij)]

theorem Heap.readR_writeI (h : Heap) (j : Nat) (v : List Int) (i : Nat) :
    (h.writeI j v).readR i = h.readR i := rfl

theorem Heap.readI_writeR (h : Heap) (j : Nat) (v : List ℚ) (i : Nat) :
    (h.writeR j v).readI i = h.readI i := rfl

theorem Heap.readR_allocR (h : Heap) (v : List ℚ) (i : Nat)
    (hi : i < h.reals.length) : ((h.allocR v).1).readR i = h.readR i := by
  simp only [Heap.readR, Heap.allocR]
  exact List.getD_append _ _ _ _ hi

theorem Heap.readI_allocI (h : Heap) (v : List Int) (i : Nat)
    (hi : i < h.ints.length) : ((h.allocI v).1).readI i = h.readI i := by
  simp only [Heap.readI, Heap.allocI]
  exact List.getD_append _ _ _ _ hi

theorem Heap.readR_allocI (h : Heap) (v : List Int) (i : Nat) :
    ((h.allocI v).1).readR i = h.readR i := rfl

theorem Heap.readI_allocR (h : Heap) (v : List ℚ) (i : Nat) :
    ((h.allocR v).1).readI i = h.readI i := rfl

theorem Heap.reals_length_writeR (h : Heap) (j : Nat) (v : List ℚ) :
    (h.writeR j v).reals.length = h.reals.length := by
  simp [Heap.writeR]

theorem Heap.ints_length_writeI (h : Heap) (j : Nat) (v : List Int) :
    (h.writeI j v).ints.length = h.ints.length := by
  simp [Heap.writeI]

theorem Heap.reals_length_allocR (h : Heap) (v : List ℚ) :
    ((h.allocR v).1).reals.length = h.reals.length + 1 := by
  simp [Heap.allocR]

theorem Heap.ints_writeR (h : Heap) (j : Nat) (v : List ℚ) :
    (h.writeR j v).ints = h.ints := rfl

theorem Heap.ints_allocR (h : Heap) (v : List ℚ) :
    ((h.allocR v).1).ints = h.ints := rfl

theorem Heap.reals_writeI (h : Heap) (j : Nat) (v : List Int) :
    (h.writeI j v).reals = h.reals := rfl

theorem Heap.reals_allocI (h : Heap) (v : List Int) :
    ((h.allocI v).1).reals = h.reals := rfl

theorem Heap.allocR_snd (h : Heap) (v : List ℚ) :
    (h.allocR v).2 = h.reals.length := rfl

theorem Heap.allocI_snd (h : Heap) (v : List Int) :
    (h.allocI v).2 = h.ints.length := rfl

/-- C9: `Predict` and `CalcGrad` mutate only their output buffer: on the
store-passing model, a successful call leaves every pre-existing `real_t`
cell other than the output handle — in particular `param[0]` and the label
array — and every pre-existing `int` cell — the block's `offset` / `index`
arrays and any position-mapping buffer — exactly as it was. -/
theorem loss_mutates_only_output :
    (∀ (br : RowBlockRef) (param : List ParamRef) (predH : Nat) (h0 h' : Heap),
      PredictH br param predH h0 = some h' →
        (∀ i, i < h0.reals.length → i ≠ predH → h'.readR i = h0.readR i) ∧
        h'.ints = h0.ints) ∧
    (∀ (ex : ℚ → ℚ) (cfg : LogitLossDeltaParam) (br : RowBlockRef)
      (param : List ParamRef) (gradH : Nat) (h0 h' : Heap),
      CalcGradH ex cfg br param gradH h0 = some h' →
        (∀ i, i < h0.reals.length → i ≠ gradH → h'.readR i = h0.readR i) ∧
        (∀ j, j < h0.ints.length → h'.readI j = h0.readI j)) := by
  constructor
  · intro br param predH h0 h' hp
    simp only [PredictH] at hp
    split at hp
    · injection hp with hp
      subst hp
      exact ⟨fun i _ hne => Heap.readR_writeR_ne _ _ _ _ hne, rfl⟩
    · exact Option.noConfusion hp
  · intro ex cfg br param gradH h0 h' hp
    simp only [CalcGradH] at hp
    split at hp
    case isFalse => exact Option.noConfusion hp
    case isTrue hpsize =>
      split at hp
      case h_1 => exact Option.noConfusion hp
      case h_2 label hlab =>
        split at hp
        case isTrue hflags =>
          injection hp with hp
          subst hp
          constructor
          · intro i hi hne
            rw [Heap.readR_writeR_ne _ _ _ _ hne, Heap.readR_writeR_ne,
              Heap.readR_allocR]
            all_goals try simp only [Heap.allocR_snd, Heap.reals_length_allocR]
            all_goals omega
          · intro j _
            rfl
        case isFalse hflags =>
          rcases hv : br.valueH with _ | k <;> simp only [hv] at hp
          · -- valueH = none
            split at hp
            · -- diag = true
              injection hp with hp
              subst hp
              constructor
              · intro i hi hne
                rw [Heap.readR_writeR_ne _ _ _ _ hne, Heap.readR_writeR_ne,
                  Heap.readR_writeI, Heap.readR_allocI,
                  Heap.readR_writeR_ne _ _ _ _ hne, Heap.readR_writeR_ne,
                  Heap.readR_allocR]
                all_goals try simp only [Heap.allocR_snd, Heap.reals_length_allocR]
                all_goals omega
              · intro j hj
                rw [Heap.readI_writeR, Heap.readI_writeR, Heap.readI_writeI_ne,
                  Heap.readI_allocI, Heap.readI_writeR, Heap.readI_writeR,
                  Heap.readI_allocR]
                all_goals try simp only [Heap.allocI_snd, Heap.ints_writeR,
                  Heap.ints_allocR]
                all_goals omega
            · -- diag = false
              split at hp
              · -- psize = 3
                injection hp with hp
                subst hp
                constructor
                · intro i hi hne
                  rw [Heap.readR_writeR_ne, Heap.readR_writeI, Heap.readR_allocI,
                    Heap.readR_writeR_ne _ _ _ _ hne, Heap.readR_writeR_ne,
                    Heap.readR_allocR]
                  all_goals try simp only [Heap.allocR_snd, Heap.reals_length_allocR]
                  all_goals omega
                · intro j hj
                  rw [Heap.readI_writeR, Heap.readI_writeI_ne, Heap.readI_allocI,
                    Heap.readI_writeR, Heap.readI_writeR, Heap.readI_allocR]
                  all_goals try simp only [Heap.allocI_snd, Heap.ints_writeR,
                    Heap.ints_allocR]
                  all_goals omega
              · exact Option.noConfusion hp
          · -- valueH = some k
            split at hp
            · -- diag = true
              injection hp with hp
              subst hp
              constructor
              · intro i hi hne
                rw [Heap.readR_writeR_ne _ _ _ _ hne, Heap.readR_writeR_ne,
                  Heap.readR_allocR, Heap.readR_writeI, Heap.readR_allocI,
                  Heap.readR_writeR_ne _ _ _ _ hne, Heap.readR_writeR_ne,
                  Heap.readR_allocR]
                all_goals try simp only [Heap.allocR_snd, Heap.reals_length_allocR,
                  Heap.reals_writeI, Heap.reals_allocI, Heap.reals_length_writeR]
                all_goals omega
              · intro j hj
                rw [Heap.readI_writeR, Heap.readI_writeR, Heap.readI_allocR,
                  Heap.readI_writeI_ne, Heap.readI_allocI, Heap.readI_writeR,
                  Heap.readI_writeR, Heap.readI_allocR]
                all_goals try simp only [Heap.allocI_snd, Heap.ints_writeR,
                  Heap.ints_allocR]
                all_goals omega
            · -- diag = false
              split at hp
              · -- psize = 3
                injection hp with hp
                subst hp
                constructor
                · intro i hi hne
                  rw [Heap.readR_writeR_ne, Heap.readR_allocR, Heap.readR_writeI,
                    Heap.readR_allocI, Heap.readR_writeR_ne _ _ _ _ hne,
                    Heap.readR_writeR_ne, Heap.readR_allocR]
                  all_goals try simp only [Heap.allocR_snd, Heap.reals_length_allocR,
                    Heap.reals_writeI, Heap.reals_allocI, Heap.reals_length_writeR]
                  all_goals omega
                · intro j hj
                  rw [Heap.readI_writeR, Heap.readI_allocR, Heap.readI_writeI_ne,
                    Heap.readI_allocI, Heap.readI_writeR, Heap.readI_writeR,
                    Heap.readI_allocR]
                  all_goals try simp only [Heap.allocI_snd, Heap.ints_writeR,
                    Heap.ints_allocR]
                  all_goals omega
              · exact Option.noConfusion hp

/-- Witness for C9: a concrete `Predict` run (the caller's delta-weight cell
is untouched and no `int` cell changes) and a concrete diagonal-Hessian
`CalcGrad` run (the label cell is untouched and the `grad_pos` cell keeps its
value). -/
theorem loss_mutates_only_output_witness :
    (⟨[[1, 2], [6, 7]], [[0, 2, 4], [0, 1, 0, 1]]⟩ : Heap).readR 0 =
      (⟨[[1, 2], [3, 4]], [[0, 2, 4], [0, 1, 0, 1]]⟩ : Heap).readR 0 ∧
    (⟨[[1, 2], [6, 7]], [[0, 2, 4], [0, 1, 0, 1]]⟩ : Heap).ints =
      (⟨[[1, 2], [3, 4]], [[0, 2, 4], [0, 1, 0, 1]]⟩ : Heap).ints ∧
    (⟨[[1, -1], [0, 0], [0, 1 / 2, 0, 1 / 2], [1 / 4, 1 / 4]],
        [[0, 2, 4], [0, 1, 0, 1], [0, 2], [1, 3]]⟩ : Heap).readR 0 =
      (⟨[[1, -1], [0, 0], [0, 0, 0, 0]],
        [[0, 2, 4], [0, 1, 0, 1], [0, 2]]⟩ : Heap).readR 0 ∧
    (⟨[[1, -1], [0, 0], [0, 1 / 2, 0, 1 / 2], [1 / 4, 1 / 4]],
        [[0, 2, 4], [0, 1, 0, 1], [0, 2], [1, 3]]⟩ : Heap).readI 2 =
      (⟨[[1, -1], [0, 0], [0, 0, 0, 0]],
        [[0, 2, 4], [0, 1, 0, 1], [0, 2]]⟩ : Heap).readI 2 := by
  have hP := loss_mutates_only_output.1 ⟨2, 0, 1, none, none⟩ [.realsH 0] 1
    ⟨[[1, 2], [3, 4]], [[0, 2, 4], [0, 1, 0, 1]]⟩
    ⟨[[1, 2], [6, 7]], [[0, 2, 4], [0, 1, 0, 1]]⟩
    (by
      simp [PredictH, Heap.writeR, Heap.readR, Heap.readI, derefBlock, argR,
        argI, SpMV.TransTimes, accumFrom, transContrib, rowEntries, posMap,
        List.range_succ]
      norm_num)
  have hC := loss_mutates_only_output.2 (fun _ => 1) ⟨true, true⟩
    ⟨2, 0, 1, none, some 0⟩ [.realsH 1, .intsH 2] 2
    ⟨[[1, -1], [0, 0], [0, 0, 0, 0]], [[0, 2, 4], [0, 1, 0, 1], [0, 2]]⟩
    ⟨[[1, -1], [0, 0], [0, 1 / 2, 0, 1 / 2], [1 / 4, 1 / 4]],
      [[0, 2, 4], [0, 1, 0, 1], [0, 2], [1, 3]]⟩
    (by
      simp [CalcGradH, Heap.allocR, Heap.allocI, Heap.writeR, Heap.writeI,
        Heap.readR, Heap.readI, derefBlock, argR, argI, tauTransform,
        curvTransform, SpMV.Times, accumFrom, timesContrib, rowDot, rowEntries,
        posMap, hPosOf, squaredBlock, List.range_succ]
      norm_num)
  exact ⟨hP.1 0 (by norm_num) (by norm_num), hP.2,
    hC.1 0 (by norm_num) (by norm_num), hC.2 2 (by norm_num)⟩

end Difacto
